import Mathlib

/-!
Verification of the football match-analysis program.

The program reads a comma-separated file of match results, decodes each row
into a typed record, counts the wins of a named team, and renders the summary
either to the console or to an HTML file.  The definitions below are a shallow
embedding of the TypeScript sources:

* `MatchData`, `MatchResult`  — src/MatchData.ts and the `MatchResult` string
  enum (a TypeScript string enum: at runtime each member IS its raw string,
  so the result field is modelled as a string and the enum members as string
  constants).  Fields that can hold the JavaScript values `undefined` or `NaN`
  at runtime (out-of-range row access, `parseInt` on a non-numeric string)
  are modelled as `Option`; `none` stands for `undefined`/`NaN`.
* `splitOnChar`, `CsvFileReader.read` — CsvFileReader.ts: the reader splits
  the raw text on `"\n"`, splits every line on `","` (JavaScript
  `String.prototype.split` with a one-character separator, which keeps empty
  fragments: `"".split(",") = [""]`), and maps the row decoder over the rows.
* `jsParseInt` — JavaScript `parseInt`: skip leading whitespace, optional
  sign, then the longest prefix of decimal digits; `none` (NaN) if there is
  no digit.
* `dateStringToDate` — the helper `utils.ts` is absent from the sources; it
  is modelled from the spec.
* `MatchReader.mapRow`, `MatchReader.read` — the `MatchReader` subclass as
  shown in the repository's README.  A decode failure is modelled as `none`;
  a thrown exception inside the `map` callback aborts the whole read before
  `this.data` is assigned, hence `MatchReader.read` is all-or-nothing.
* `winsCount`, `WinsAnalysis` — Analyzers/WinsAnalysis.ts: the `for` loop is
  embedded as a left fold with the accumulator `teamWins`.
* `FS`, `writeFileSync`, `htmlTemplate`, `HTMLReport` — ReportTargets/
  HTMLReport.ts.  The file system is modelled as a map from paths to file
  contents; `fs.writeFileSync` replaces the content at one path.
* `Summary` — Summary.ts: the orchestrator holding one analyzer and one
  output target.
-/

namespace Football

/-- Calendar date as produced by the date helper (year, month, day). -/
structure CalendarDate where
  year : Int
  month : Int
  day : Int
deriving DecidableEq

/-- One decoded match row, src/MatchData.ts:
`[Date, string, string, number, number, MatchResult, string]`.
String and number fields are `Option` because at runtime they can hold
`undefined` (row access past the end) or `NaN` (failed `parseInt`);
`none` models those values, which compare unequal to every real string. -/
structure MatchData where
  date : CalendarDate
  homeTeam : Option String
  awayTeam : Option String
  homeGoals : Option Int
  awayGoals : Option Int
  result : Option String
  competition : Option String
deriving DecidableEq

/-- The `MatchResult` string enum: at runtime `MatchResult.HomeWin` is the
string `"H"`. -/
def MatchResult.HomeWin : String := "H"

/-- Raw string value of the `AwayWin` enum member. -/
def MatchResult.AwayWin : String := "A"

/-- Raw string value of the `Draw` enum member. -/
def MatchResult.Draw : String := "D"

/-- JavaScript `String.prototype.split` with a one-character separator:
every occurrence of the separator ends a fragment, empty fragments are kept,
and the result is never the empty list (`"".split(sep) = [""]`). -/
def splitOnChar (sep : Char) : List Char → List (List Char)
  | [] => [[]]
  | c :: cs =>
    if c = sep then
      [] :: splitOnChar sep cs
    else
      match splitOnChar sep cs with
      | [] => [[c]]
      | r :: rs => (c :: r) :: rs

/-- The row-splitting stage of `CsvFileReader.read`:
`text.split("\n").map(row => row.split(","))`. -/
def splitRows (text : String) : List (List String) :=
  (splitOnChar '\n' text.data).map
    (fun line => (splitOnChar ',' line).map String.mk)

/-- The generic `CsvFileReader<T>.read` for a decoder that cannot throw:
split the text into rows and map `mapRow` over every row (no filtering of
any kind happens between splitting and decoding). -/
def CsvFileReader.read {T : Type} (mapRowF : List String → T) (text : String) : List T :=
  (splitRows text).map mapRowF

/-- JavaScript `parseInt` digit-run: longest prefix of decimal digits. -/
def digitRun : List Char → List Char
  | [] => []
  | c :: cs => if c.isDigit then c :: digitRun cs else []

/-- Numeric value of a digit list (most significant first). -/
def digitsVal (l : List Char) : Nat :=
  l.foldl (fun acc c => acc * 10 + (c.toNat - 48)) 0

/-- JavaScript `parseInt(s)`: skip leading whitespace, optional `+`/`-` sign,
then read the longest run of decimal digits; the result is NaN (modelled as
`none`) when that run is empty, otherwise the signed integer value. -/
def jsParseInt (s : String) : Option Int :=
  let cs := s.data.dropWhile (fun c => c = ' ' ∨ c = '\t' ∨ c = '\n' ∨ c = '\r')
  match cs with
  | '-' :: rest =>
    if (digitRun rest).isEmpty then none else some (-(digitsVal (digitRun rest) : Int))
  | '+' :: rest =>
    if (digitRun rest).isEmpty then none else some ((digitsVal (digitRun rest) : Int))
  | rest =>
    if (digitRun rest).isEmpty then none else some ((digitsVal (digitRun rest) : Int))

/-- Modelled from the spec: `dateStringToDate` (the helper in `utils.ts`,
absent from the sources) parses the date field into a calendar date and fails
when the text is not parseable as a calendar date (spec 4.1: the decoder
fails "if ... the date field is not parseable as a calendar date").  The
spec's scenario rows use `"2024-01-01"`, so the model splits on `-` and
requires exactly three integer parts, year-month-day. -/
def dateStringToDate (s : String) : Option CalendarDate :=
  match (splitOnChar '-' s.data).map (fun part => jsParseInt (String.mk part)) with
  | [some y, some m, some d] => some ⟨y, m, d⟩
  | _ => none

/-- The `MatchReader.mapRow` shown in the repository README: the date field
goes through `dateStringToDate` (which may fail, modelled as `none`), the
goal fields through `parseInt` (NaN on non-numeric input, modelled as `none`
inside the record, never a failure), and the result field through the
unchecked cast `row[5] as MatchResult`, which accepts any string without
validation.  Accessing a missing field yields `undefined` (`none`). -/
def MatchReader.mapRow (row : List String) : Option MatchData :=
  match row.get? 0 with
  | none => none
  | some dateText =>
    match dateStringToDate dateText with
    | none => none
    | some d =>
      some
        { date := d
          homeTeam := row.get? 1
          awayTeam := row.get? 2
          homeGoals := (row.get? 3).bind jsParseInt
          awayGoals := (row.get? 4).bind jsParseInt
          result := row.get? 5
          competition := row.get? 6 }

/-- Decode a list of rows all-or-nothing: an exception thrown by the decoder
inside the `map` callback aborts the whole pass, so a single failing row
yields no records at all. -/
def decodeRows : List (List String) → Option (List MatchData)
  | [] => some []
  | r :: rs =>
    match MatchReader.mapRow r, decodeRows rs with
    | some m, some ms => some (m :: ms)
    | _, _ => none

/-- The `MatchReader` load pass (spec 4.2 `load`; the concrete `MatchReader`
class file is absent from the sources, its `load`/`matches` surface is
modelled from the spec): split the text into rows and decode every row; when
any row fails the whole load fails and no records are returned. -/
def MatchReader.read (text : String) : Option (List MatchData) :=
  decodeRows (splitRows text)

/-- The win predicate of `WinsAnalysis.run`, exactly the source condition
`(match[1] === this.team && match[5] === MatchResult.HomeWin) ||
 (match[2] === this.team && match[5] === MatchResult.AwayWin)`. -/
def isWinFor (team : String) (m : MatchData) : Bool :=
  decide ((m.homeTeam = some team ∧ m.result = some MatchResult.HomeWin) ∨
          (m.awayTeam = some team ∧ m.result = some MatchResult.AwayWin))

/-- The counting loop of `WinsAnalysis.run`: `teamWins` starts at 0 and is
incremented once for every match satisfying the win condition. -/
def winsCount (team : String) (matchList : List MatchData) : Nat :=
  matchList.foldl
    (fun teamWins m =>
      if (m.homeTeam = some team ∧ m.result = some MatchResult.HomeWin) ∨
         (m.awayTeam = some team ∧ m.result = some MatchResult.AwayWin)
      then teamWins + 1 else teamWins)
    0

/-- The file system, a map from paths to file contents (`none` = no file). -/
def FS : Type := String → Option String

/-- Node's `fs.writeFileSync(path, content)`: replace the entire content at
`path`, leaving every other path untouched. -/
def writeFileSync (fs : FS) (path content : String) : FS :=
  fun p => if p = path then some content else fs p

/-- The `Analyzer` capability of Summary.ts: `run(matchList) -> string`. -/
structure Analyzer where
  run : List MatchData → String

/-- The `OutputTarget` capability of Summary.ts: `print(report) -> void`,
modelled as a file-system transformer. -/
structure OutputTarget where
  print : String → FS → FS

/-- The `WinsAnalysis` analyzer (Analyzers/WinsAnalysis.ts): count the wins
of the fixed team and render the template literal
`` `${this.team} won ${teamWins} games` ``. -/
def WinsAnalysis (team : String) : Analyzer :=
  ⟨fun matchList => team ++ (" won " ++ (toString (winsCount team matchList) ++ " games"))⟩

/-- The template literal of `HTMLReport.print`, whitespace exactly as in the
source:
a leading newline, `<div>` indented 8 spaces, the heading and the content
`<div>` indented 12 spaces, the closing `</div>` indented 8 spaces, and a
trailing line of 8 spaces. -/
def htmlTemplate (report : String) : String :=
  "\n        <div>\n            <h1>Analysis Output</h1>\n            <div>" ++
    (report ++ "</div>\n        </div>\n        ")

/-- The `HTMLReport` output target (ReportTargets/HTMLReport.ts): wrap the
report in the fixed template and `writeFileSync` it to `"./report.html"`. -/
def HTMLReport : OutputTarget :=
  ⟨fun report fs => writeFileSync fs "./report.html" (htmlTemplate report)⟩

/-- The `Summary` orchestrator (Summary.ts): one analyzer, one output target. -/
structure Summary where
  analyzer : Analyzer
  outputTarget : OutputTarget

/-- The method `Summary.buildAndPrintReport`:
`const report = this.analyzer.run(matchList); this.outputTarget.print(report);`. -/
def Summary.buildAndPrintReport (s : Summary) (matchList : List MatchData) (fs : FS) : FS :=
  let report := s.analyzer.run matchList
  s.outputTarget.print report fs

/-- The static convenience constructor `Summary.winsAnalysisWithHtmlReport`:
`new Summary(new WinsAnalysis(teamName), new HTMLReport())`. -/
def Summary.winsAnalysisWithHtmlReport (teamName : String) : Summary :=
  ⟨WinsAnalysis teamName, HTMLReport⟩

/-- Spec-side orchestration contract, following the spec's words
("invokes Analyzer.run, then Output Target.print with the result, in that
order, synchronously"): apply the output target's print to exactly the
string the analyzer returned. -/
def buildAndPrintContract (analyzer : Analyzer) (target : OutputTarget)
    (matchList : List MatchData) (fs : FS) : FS :=
  target.print (analyzer.run matchList) fs

/-- The empty file system: no path holds a file. -/
def emptyFS : FS := fun _ => none

/-- Sample record: team `"A"` at home beats `"B"` 2-1 (spec scenario 1). -/
def sampleWin : MatchData :=
  ⟨⟨2024, 1, 1⟩, some "A", some "B", some 2, some 1, some "H", some "Cup"⟩

/-- Sample record: `"B"` hosts `"A"`, goalless draw (spec scenario 1). -/
def sampleDraw : MatchData :=
  ⟨⟨2024, 1, 2⟩, some "B", some "A", some 0, some 0, some "D", some "Cup"⟩

/- Helper lemmas shared by the claim theorems. -/

/-- The accumulator loop of `winsCount` counts exactly the records satisfying
the win predicate. -/
theorem winsCount_eq_countP (team : String) (l : List MatchData) :
    winsCount team l = l.countP (isWinFor team) := by
  suffices h : ∀ n : Nat,
      l.foldl
        (fun teamWins m =>
          if (m.homeTeam = some team ∧ m.result = some MatchResult.HomeWin) ∨
             (m.awayTeam = some team ∧ m.result = some MatchResult.AwayWin)
          then teamWins + 1 else teamWins)
        n = n + l.countP (isWinFor team) by
    simpa [winsCount] using h 0
  induction l with
  | nil => intro n; simp
  | cons m l ih =>
    intro n
    by_cases hp : (m.homeTeam = some team ∧ m.result = some MatchResult.HomeWin) ∨
        (m.awayTeam = some team ∧ m.result = some MatchResult.AwayWin)
    · simp [List.foldl_cons, List.countP_cons, isWinFor, hp, ih]
      omega
    · simp [List.foldl_cons, List.countP_cons, isWinFor, hp, ih]

/-- The split `splitOnChar` never returns the empty list (JavaScript `split` always
yields at least one fragment). -/
theorem splitOnChar_ne_nil (sep : Char) (l : List Char) : splitOnChar sep l ≠ [] := by
  cases l with
  | nil => simp [splitOnChar]
  | cons c cs =>
    by_cases hc : c = sep
    · simp [splitOnChar, hc]
    · simp only [splitOnChar, if_neg hc]
      cases h : splitOnChar sep cs <;> simp

/-- Appending a final separator appends one empty fragment to the split. -/
theorem splitOnChar_append_sep (sep : Char) (l : List Char) :
    splitOnChar sep (l ++ [sep]) = splitOnChar sep l ++ [[]] := by
  induction l with
  | nil => simp [splitOnChar]
  | cons c cs ih =>
    by_cases hc : c = sep
    · simp [splitOnChar, hc, ih]
    · obtain ⟨r, rs, hr⟩ : ∃ r rs, splitOnChar sep cs = r :: rs := by
        cases h : splitOnChar sep cs with
        | nil => exact absurd h (splitOnChar_ne_nil sep cs)
        | cons r rs => exact ⟨r, rs, rfl⟩
      simp [splitOnChar, hc, ih, hr]

/-- A final newline in the raw text produces one extra row, the empty row
`[""]`, at the end of the split. -/
theorem splitRows_append_newline (s : String) :
    splitRows (s ++ "\n") = splitRows s ++ [[""]] := by
  unfold splitRows
  rw [String.data_append]
  show (splitOnChar '\n' (s.data ++ ['\n'])).map _ = _
  rw [splitOnChar_append_sep, List.map_append]
  rfl

/-- Decoding a row list succeeds exactly when every row decodes. -/
theorem decodeRows_isSome_eq_all (rows : List (List String)) :
    (decodeRows rows).isSome = rows.all (fun r => (MatchReader.mapRow r).isSome) := by
  induction rows with
  | nil => simp [decodeRows]
  | cons r rs ih =>
    cases h1 : MatchReader.mapRow r <;> cases h2 : decodeRows rs <;>
      simp_all [decodeRows]

/-- C1: for every list of match records and every team name, the count
computed by `WinsAnalysis.run` equals the number of records satisfying
`(homeTeam = team and result = HomeWin) or (awayTeam = team and result =
AwayWin)`, team comparison being exact case-sensitive string equality;
draws and losses contribute nothing. -/
theorem winsAnalysis_counts_wins (team : String) (matchList : List MatchData) :
    winsCount team matchList =
      matchList.countP (fun m =>
        decide ((m.homeTeam = some team ∧ m.result = some MatchResult.HomeWin) ∨
                (m.awayTeam = some team ∧ m.result = some MatchResult.AwayWin))) :=
  winsCount_eq_countP team matchList

/-- C2: for every list of match records and every team name, the summary
string of `WinsAnalysis.run` is exactly `"<team> won <count> games"` with
`<count>` the win count; for the empty list the result is
`"<team> won 0 games"`. -/
theorem winsAnalysis_summary_format (team : String) :
    (∀ matchList : List MatchData,
        (WinsAnalysis team).run matchList =
          team ++ (" won " ++ (toString (matchList.countP (isWinFor team)) ++ " games"))) ∧
    (WinsAnalysis team).run [] = team ++ " won 0 games" := by
  constructor
  · intro matchList
    show team ++ (" won " ++ (toString (winsCount team matchList) ++ " games")) = _
    rw [winsCount_eq_countP]
  · show team ++ (" won " ++ (toString (winsCount team []) ++ " games")) = _
    have h0 : winsCount team [] = 0 := rfl
    rw [h0]
    have h1 : (" won " ++ (toString (0 : Nat) ++ " games") : String) = " won 0 games" := rfl
    rw [h1]

/-- C3 counterexample: a full row whose result token is `"X"` (not one of
`"H"`, `"A"`, `"D"`) decodes successfully — the cast `row[5] as MatchResult`
performs no validation — and a load containing only that row returns its
record instead of failing, contrary to the claim and to spec scenario 3. -/
theorem mapRow_accepts_unrecognized_token :
    (MatchReader.mapRow ["2024-01-01", "A", "B", "2", "1", "X", "Cup"]).isSome = true ∧
    (MatchReader.read "2024-01-01,A,B,2,1,X,Cup").isSome = true := by
  constructor <;> decide

/-- C3 amended: decoding a raw row fails exactly when the date field fails
to parse (missing field or unparseable date, via the spec-modelled
`dateStringToDate`); an unparseable goals field yields NaN without failing
and the result field is cast unchecked, so no result token and no goals
text ever causes a failure.  When any row of a load fails, the whole load
fails and no records are returned. -/
theorem mapRow_fails_only_on_date_field :
    (∀ row : List String,
        (MatchReader.mapRow row).isNone = ((row.get? 0).bind dateStringToDate).isNone) ∧
    (∀ text : String,
        (MatchReader.read text).isSome =
          (splitRows text).all (fun r => (MatchReader.mapRow r).isSome)) := by
  constructor
  · intro row
    simp only [List.get?_eq_getElem?]
    cases h0 : row[0]? with
    | none => simp [MatchReader.mapRow, h0]
    | some dateText =>
      cases hd : dateStringToDate dateText <;>
        simp [MatchReader.mapRow, h0, hd]
  · intro text
    exact decodeRows_isSome_eq_all (splitRows text)

/-- C4 counterexample: the reader performs no filtering between splitting
and decoding: on the input `"a,b\n"` (a final newline) the row decoder is
applied to the empty row `[""]` — visible with the identity decoder — and
decoding that empty row makes the whole load fail rather than being
skipped, contrary to the claim. -/
theorem read_passes_empty_row_to_decoder :
    CsvFileReader.read (fun r => r) "a,b\n" = [["a", "b"], [""]] ∧
    MatchReader.mapRow [""] = none ∧
    MatchReader.read "a,b\n" = none := by
  refine ⟨by decide, by decide, by decide⟩

/-- C4 amended: `CsvFileReader.read` applies the row decoder to every split
row with no filtering of any kind; a trailing newline therefore produces a
final empty row `[""]` that is passed to the decoder like any other row,
and (with the match decoder) decoding it fails, aborting the load. -/
theorem read_no_filtering_of_trailing_empty_row :
    (∀ (T : Type) (f : List String → T) (text : String),
        CsvFileReader.read f text = (splitRows text).map f) ∧
    (∀ s : String, splitRows (s ++ "\n") = splitRows s ++ [[""]]) ∧
    MatchReader.read "a,b\n" = none := by
  refine ⟨fun T f text => rfl, fun s => splitRows_append_newline s, by decide⟩

/-- C5: the summary string of `WinsAnalysis.run` is invariant under any
permutation of the input record list. -/
theorem winsAnalysis_perm_invariant (team : String) {l₁ l₂ : List MatchData}
    (h : l₁.Perm l₂) :
    (WinsAnalysis team).run l₁ = (WinsAnalysis team).run l₂ := by
  show team ++ (" won " ++ (toString (winsCount team l₁) ++ " games")) =
    team ++ (" won " ++ (toString (winsCount team l₂) ++ " games"))
  rw [winsCount_eq_countP, h.countP_eq, ← winsCount_eq_countP]

/-- Witness for C5 at a concrete permutation of two distinct records. -/
theorem winsAnalysis_perm_invariant_witness :
    ([sampleWin, sampleDraw].Perm [sampleDraw, sampleWin]) ∧
    (WinsAnalysis "A").run [sampleWin, sampleDraw] =
      (WinsAnalysis "A").run [sampleDraw, sampleWin] :=
  ⟨by decide, winsAnalysis_perm_invariant "A" (by decide)⟩

/-- C6: a record in which the team is neither the home team nor the away
team never contributes: appending it to any list leaves the count
unchanged. -/
theorem winsAnalysis_ignores_uninvolved (team : String) (m : MatchData)
    (l : List MatchData) (h1 : m.homeTeam ≠ some team) (h2 : m.awayTeam ≠ some team) :
    winsCount team (l ++ [m]) = winsCount team l := by
  have hm : isWinFor team m = false := by
    simp only [isWinFor, decide_eq_false_iff_not]
    rintro (⟨hh, _⟩ | ⟨ha, _⟩)
    exacts [h1 hh, h2 ha]
  rw [winsCount_eq_countP, winsCount_eq_countP, List.countP_append]
  simp [List.countP_cons, hm]

/-- Witness for C6: appending a record of two other teams to a one-record
list leaves the count for `"C"` unchanged. -/
theorem winsAnalysis_ignores_uninvolved_witness :
    (sampleWin.homeTeam ≠ some "C") ∧ (sampleWin.awayTeam ≠ some "C") ∧
    winsCount "C" ([sampleDraw] ++ [sampleWin]) = winsCount "C" [sampleDraw] :=
  ⟨by decide, by decide,
    winsAnalysis_ignores_uninvolved "C" sampleWin [sampleDraw] (by decide) (by decide)⟩

/-- C7: `HTMLReport.print` writes to the destination the fixed template
around the report — the written content contains the report verbatim and
the heading `<h1>Analysis Output</h1>` — and the write replaces the whole
previous content: after two successive prints the file holds exactly the
wrapping of the second report, with no concatenation of the first. -/
theorem htmlReport_wraps_and_overwrites (fs : FS) (r1 r2 : String) :
    (HTMLReport.print r1 fs) "./report.html" = some (htmlTemplate r1) ∧
    (HTMLReport.print r2 (HTMLReport.print r1 fs)) "./report.html" =
      some (htmlTemplate r2) ∧
    (∃ a b, htmlTemplate r2 = a ++ (r2 ++ b)) ∧
    (∃ a b, htmlTemplate r2 = a ++ ("<h1>Analysis Output</h1>" ++ b)) := by
  refine ⟨?_, ?_, ⟨_, _, rfl⟩, ?_⟩
  · simp [HTMLReport, writeFileSync]
  · simp [HTMLReport, writeFileSync]
  · refine ⟨"\n        <div>\n            ",
      "\n            <div>" ++ (r2 ++ "</div>\n        </div>\n        "), ?_⟩
    calc htmlTemplate r2
        = ("\n        <div>\n            " ++
            ("<h1>Analysis Output</h1>" ++ "\n            <div>")) ++
            (r2 ++ "</div>\n        </div>\n        ") := rfl
      _ = "\n        <div>\n            " ++
            (("<h1>Analysis Output</h1>" ++ "\n            <div>") ++
              (r2 ++ "</div>\n        </div>\n        ")) := by
            rw [String.append_assoc]
      _ = "\n        <div>\n            " ++
            ("<h1>Analysis Output</h1>" ++
              ("\n            <div>" ++ (r2 ++ "</div>\n        </div>\n        "))) := by
            rw [String.append_assoc]

/-- C8: `Summary.buildAndPrintReport` passes exactly the analyzer's result,
unmodified, to the output target's print (the spec-side contract), and the
named constructor `Summary.winsAnalysisWithHtmlReport team` is the summary
`⟨WinsAnalysis team, HTMLReport⟩`, whose report behaviour is identical to
the two-argument constructor path. -/
theorem summary_orchestration (s : Summary) (team : String)
    (matchList : List MatchData) (fs : FS) :
    s.buildAndPrintReport matchList fs =
      buildAndPrintContract s.analyzer s.outputTarget matchList fs ∧
    Summary.winsAnalysisWithHtmlReport team = ⟨WinsAnalysis team, HTMLReport⟩ ∧
    (Summary.winsAnalysisWithHtmlReport team).buildAndPrintReport matchList fs =
      (Summary.mk (WinsAnalysis team) HTMLReport).buildAndPrintReport matchList fs :=
  ⟨rfl, rfl, rfl⟩

/-- C9: the win count is a list homomorphism into addition: the count over a
concatenation is the sum of the counts over the parts. -/
theorem winsCount_append_hom (team : String) (xs ys : List MatchData) :
    winsCount team (xs ++ ys) = winsCount team xs + winsCount team ys := by
  rw [winsCount_eq_countP, winsCount_eq_countP, winsCount_eq_countP,
    List.countP_append]

/-- C10: `HTMLReport.print` writes to the single hard-coded path
`"./report.html"`, whatever the report and prior file system, and modifies
no other path. -/
theorem htmlReport_fixed_path_frame (fs : FS) (report : String) :
    (HTMLReport.print report fs) "./report.html" = some (htmlTemplate report) ∧
    ∀ p : String, p ≠ "./report.html" → (HTMLReport.print report fs) p = fs p := by
  constructor
  · simp [HTMLReport, writeFileSync]
  · intro p hp
    simp [HTMLReport, writeFileSync, hp]

/-- Witness for C10 at a concrete other path and the empty file system. -/
theorem htmlReport_fixed_path_frame_witness :
    ("./other.txt" ≠ "./report.html") ∧
    (HTMLReport.print "X won 3 games" emptyFS) "./other.txt" = emptyFS "./other.txt" :=
  ⟨by decide,
    (htmlReport_fixed_path_frame emptyFS "X won 3 games").2 "./other.txt" (by decide)⟩

end Football
